import Mathlib

/-!
Verification of `txtai/vectors/recovery.py`.

The module defines a single class `Recovery` that snapshots a vector
checkpoint file (`<checkpoint>/<vectorsid>`) into `<checkpoint>/recovery`,
then streams decoded batches from the snapshot via an externally supplied
`load` function until `EOFError`, at which point it closes the handle,
deletes the snapshot and disables itself.

Shallow embedding: the filesystem is a map from path strings to byte
contents together with a writability oracle (modelling the I/O failure
modes of `shutil.copyfile`); an open file handle is the byte contents
frozen at `open` time plus a read position and a closed flag; Python
exceptions become an explicit `Exn` type and fallible operations return
`Except`.  `Recovery.__init__` and `Recovery.__call__` are translated as
pure state-passing functions `Recovery.init` and `Recovery.call`.
-/

/-- Byte contents of a file, modelled as a list of byte values. -/
abbrev Bytes := List Nat

/-- Filesystem model: a partial map from paths to byte contents, plus a
writability oracle used to model I/O failures (permissions, disk space)
of `shutil.copyfile`. -/
structure FSt where
  contents : String → Option Bytes
  writable : String → Bool

/-- Open binary file handle: the bytes of the file frozen at `open` time,
the current read position, and whether `close()` has been called.  The
`Recovery` component never rewrites the snapshot while it is open, so
freezing the bytes at `open` time is faithful to POSIX read semantics. -/
structure Handle where
  bytes : Bytes
  pos : Nat
  closed : Bool
deriving DecidableEq, Repr

/-- Python exceptions the embedded code can raise or propagate:
`ioError` for a failed `shutil.copyfile`, `sameFile` for
`shutil.SameFileError` when source and destination coincide,
`fileNotFound` for `os.remove` on a missing file, `typeError` for
`os.remove(None)`, and `decode` for any non-`EOFError` exception raised
by the supplied decoder. -/
inductive Exn where
  | ioError (p : String)
  | sameFile (p : String)
  | fileNotFound (p : String)
  | typeError
  | decode (code : Nat)
deriving DecidableEq, Repr

/-- Result of one decoder invocation on the spool handle: a decoded batch
together with the advanced handle, the `EOFError` end-of-stream signal,
or any other exception. -/
inductive LoadRes (α : Type) where
  | ok (batch : α) (h : Handle)
  | eofError
  | exn (e : Exn)

/-- The externally supplied `load` decoder (`load` argument of
`Recovery.__init__`). -/
def Load (α : Type) := Handle → LoadRes α

/-- State of a `Recovery` object: the fields `self.spool`, `self.path`
and `self.load` of the Python class. -/
structure Recovery (α : Type) where
  spool : Option Handle
  path : Option String
  load : Load α

/-- Model of `shutil.copyfile src dst`: raises `SameFileError` when the
two paths coincide, `FileNotFoundError` when the source is missing, an
I/O error when the destination is not writable, and otherwise replaces
the destination contents with the source contents. -/
def copyfile (src dst : String) (fs : FSt) : Except Exn FSt :=
  if src = dst then
    Except.error (Exn.sameFile dst)
  else
    match fs.contents src with
    | none => Except.error (Exn.fileNotFound src)
    | some d =>
      if fs.writable dst then
        Except.ok { fs with contents := fun q => if q = dst then some d else fs.contents q }
      else
        Except.error (Exn.ioError dst)

/-- Model of `os.remove`: raises `TypeError` on a `None` path,
`FileNotFoundError` when the file is absent, and otherwise deletes the
file. -/
def osRemove (po : Option String) (fs : FSt) : Except Exn FSt :=
  match po with
  | none => Except.error Exn.typeError
  | some p =>
    match fs.contents p with
    | none => Except.error (Exn.fileNotFound p)
    | some _ => Except.ok { fs with contents := fun q => if q = p then none else fs.contents q }

/-- Model of `Recovery.__init__(checkpoint, vectorsid, load)`: when the
source path `checkpoint/vectorsid` exists, copy it to the snapshot path
`checkpoint/recovery` and open the snapshot for binary reading at offset
0; otherwise leave `spool` and `path` as `None`.  A failing copy makes
construction fail: the exception propagates and no object is returned. -/
def Recovery.init (checkpoint vectorsid : String) (load : Load α) (fs : FSt) :
    Except Exn (Recovery α) × FSt :=
  let path := checkpoint ++ "/" ++ vectorsid
  match fs.contents path with
  | none => (Except.ok { spool := none, path := none, load := load }, fs)
  | some data =>
    let rpath := checkpoint ++ "/recovery"
    match copyfile path rpath fs with
    | Except.error e => (Except.error e, fs)
    | Except.ok fs2 =>
      (Except.ok { spool := some { bytes := data, pos := 0, closed := false },
                   path := some rpath, load := load }, fs2)

/-- Model of `Recovery.__call__()`: return the next decoded batch, or
`none` once the reader is disabled; on `EOFError` close the handle,
remove the snapshot file, clear `spool` and `path` and return `none`;
any other exception (from the decoder, or from `os.remove` itself)
propagates.  The mutated object state and filesystem are returned even
when an exception propagates, matching Python semantics. -/
def Recovery.call (r : Recovery α) (fs : FSt) :
    Except Exn (Option α) × Recovery α × FSt :=
  match r.spool with
  | none => (Except.ok none, r, fs)
  | some h =>
    match r.load h with
    | LoadRes.ok b h2 => (Except.ok (some b), { r with spool := some h2 }, fs)
    | LoadRes.exn e => (Except.error e, r, fs)
    | LoadRes.eofError =>
      match osRemove r.path fs with
      | Except.error e => (Except.error e, { r with spool := some { h with closed := true } }, fs)
      | Except.ok fs2 => (Except.ok none, { r with spool := none, path := none }, fs2)

/-- Run `n` successive `Recovery.call` invocations, collecting each
call's result and threading the object state and filesystem. -/
def runCalls : Recovery α → FSt → Nat → List (Except Exn (Option α)) × Recovery α × FSt
  | r, fs, 0 => ([], r, fs)
  | r, fs, n + 1 =>
    let s := Recovery.call r fs
    let t := runCalls s.2.1 s.2.2 n
    (s.1 :: t.1, t.2)

/-- The decoder `load`, started on handle `h`, yields exactly the batches
`bs` (each call returning one batch and an advanced handle) and then
signals `EOFError`.  This is the meaning of a spool "encoding exactly N
complete batches" for the given decoder. -/
inductive Yields (load : Load α) : Handle → List α → Prop where
  | nil (h : Handle) : load h = LoadRes.eofError → Yields load h []
  | cons (h h2 : Handle) (b : α) (bs : List α) :
      load h = LoadRes.ok b h2 → Yields load h2 bs → Yields load h (b :: bs)

/-- Demo decoder used for concrete evaluations: each byte of the spool
is one batch; a closed handle raises a non-EOF exception; running past
the end of the bytes raises `EOFError`. -/
def demoLoad : Load Nat := fun h =>
  if h.closed then LoadRes.exn (Exn.decode 99)
  else
    match h.bytes.drop h.pos with
    | [] => LoadRes.eofError
    | b :: _ => LoadRes.ok b { h with pos := h.pos + 1 }

/-- Demo decoder that always raises a non-EOF exception. -/
def errLoad : Load Nat := fun _ => LoadRes.exn (Exn.decode 7)

/-- Demo filesystem: a checkpoint directory containing a two-batch
source file. -/
def fsA : FSt :=
  { contents := fun q => if q = "/tmp/ckpt/vectors.bin" then some [7, 9] else none,
    writable := fun _ => true }

/-- Filesystem state after constructing a reader over `fsA`. -/
def fsA1 : FSt := (Recovery.init "/tmp/ckpt" "vectors.bin" demoLoad fsA).2

/-- The reader produced by that construction. -/
def rA : Recovery Nat :=
  { spool := some { bytes := [7, 9], pos := 0, closed := false },
    path := some "/tmp/ckpt/recovery", load := demoLoad }

/-- Demo filesystem containing only a snapshot file. -/
def fsB : FSt :=
  { contents := fun q => if q = "/tmp/ckpt/recovery" then some [7, 9] else none,
    writable := fun _ => true }

/-- A handle positioned at the end of the two-batch spool. -/
def hB : Handle := { bytes := [7, 9], pos := 2, closed := false }

/-- An active reader at end-of-spool. -/
def rB : Recovery Nat :=
  { spool := some hB, path := some "/tmp/ckpt/recovery", load := demoLoad }

/-- An active reader whose decoder always raises a non-EOF exception. -/
def rE : Recovery Nat :=
  { spool := some hB, path := some "/tmp/ckpt/recovery", load := errLoad }

/-- A disabled reader. -/
def rD : Recovery Nat := { spool := none, path := none, load := demoLoad }

/-- A filesystem with no files at all. -/
def fsEmpty : FSt := { contents := fun _ => none, writable := fun _ => true }

/-- A filesystem like `fsA` where nothing is writable. -/
def fsRO : FSt := { contents := fsA.contents, writable := fun _ => false }

theorem runCalls_zero (r : Recovery α) (fs : FSt) : runCalls r fs 0 = ([], r, fs) := rfl

theorem runCalls_succ (r : Recovery α) (fs : FSt) (n : Nat) :
    runCalls r fs (n + 1) =
      ((Recovery.call r fs).1 :: (runCalls (Recovery.call r fs).2.1 (Recovery.call r fs).2.2 n).1,
       (runCalls (Recovery.call r fs).2.1 (Recovery.call r fs).2.2 n).2) := rfl

/-- A disabled reader (spool cleared) returns no data and changes
nothing. -/
theorem call_disabled (r : Recovery α) (fs : FSt) (hs : r.spool = none) :
    Recovery.call r fs = (Except.ok none, r, fs) := by
  unfold Recovery.call
  rw [hs]

/-- A disabled reader stays disabled and silent over any number of
calls. -/
theorem runCalls_disabled (r : Recovery α) (fs : FSt) (hs : r.spool = none) :
    ∀ n, runCalls r fs n = (List.replicate n (Except.ok none), r, fs) := by
  intro n
  induction n with
  | zero => rfl
  | succ n ih =>
    rw [runCalls_succ, call_disabled r fs hs, ih]
    rfl

/-- One call on an active reader whose decoder signals `EOFError`, with
the snapshot present on disk: cleanup succeeds, the reader is disabled
and the snapshot is removed. -/
theorem call_eof (r : Recovery α) (fs : FSt) (h : Handle) (p : String) (d : Bytes)
    (hs : r.spool = some h) (hp : r.path = some p)
    (he : r.load h = LoadRes.eofError) (hf : fs.contents p = some d) :
    Recovery.call r fs =
      (Except.ok none, { r with spool := none, path := none },
       { fs with contents := fun q => if q = p then none else fs.contents q }) := by
  simp [Recovery.call, osRemove, hs, he, hp, hf]

/-- One call on an active reader whose decoder returns a batch: the batch
is passed through, the handle advances, the filesystem is untouched. -/
theorem call_batch (r : Recovery α) (fs : FSt) (h h2 : Handle) (b : α)
    (hs : r.spool = some h) (hb : r.load h = LoadRes.ok b h2) :
    Recovery.call r fs = (Except.ok (some b), { r with spool := some h2 }, fs) := by
  simp [Recovery.call, hs, hb]

/-- An active reader whose decoder yields the batches `bs` and then
signals end-of-stream, over a filesystem where the snapshot `p` is
present: running `bs.length + 1` calls returns each batch in order, then
`none`, leaves the reader disabled, and removes only `p` from disk. -/
theorem runCalls_yields (load : Load α) (h : Handle) (bs : List α) (p : String)
    (fs : FSt) (d : Bytes) (hy : Yields load h bs) (hp : fs.contents p = some d) :
    runCalls { spool := some h, path := some p, load := load } fs (bs.length + 1) =
      (bs.map (fun b => Except.ok (some b)) ++ [Except.ok none],
       { spool := none, path := none, load := load },
       { fs with contents := fun q => if q = p then none else fs.contents q }) := by
  induction hy with
  | nil h heof =>
    rw [List.length_nil, runCalls_succ,
      call_eof { spool := some h, path := some p, load := load } fs h p d rfl rfl heof hp]
    rfl
  | cons h h2 b bs hok hy2 ih =>
    have hcall := call_batch { spool := some h, path := some p, load := load } fs h h2 b rfl hok
    rw [List.length_cons, runCalls_succ, hcall, ih]
    rfl

/-- One call never changes the filesystem at any path other than the
reader's own snapshot path. -/
theorem call_frame (r : Recovery α) (fs : FSt) (q : String) (hq : r.path ≠ some q) :
    ((Recovery.call r fs).2.2).contents q = fs.contents q := by
  obtain ⟨sp, pa, ld⟩ := r
  cases sp with
  | none => rfl
  | some h =>
    cases hld : ld h with
    | ok b h2 => simp [Recovery.call, hld]
    | eofError =>
      cases pa with
      | none => simp [Recovery.call, osRemove, hld]
      | some p =>
        have hpq : p ≠ q := by
          intro hcontra
          exact hq (by rw [hcontra])
        rcases hc : fs.contents p with _ | d
        · simp [Recovery.call, osRemove, hld, hc]
        · simp only [Recovery.call, osRemove, hld, hc]
          exact if_neg hpq.symm
    | exn e => simp [Recovery.call, hld]

/-- One call either keeps the reader's snapshot path or clears it; it
never repoints it at a different file. -/
theorem call_path (r : Recovery α) (fs : FSt) :
    (Recovery.call r fs).2.1.path = r.path ∨ (Recovery.call r fs).2.1.path = none := by
  obtain ⟨sp, pa, ld⟩ := r
  cases sp with
  | none => exact Or.inl rfl
  | some h =>
    cases hld : ld h with
    | ok b h2 =>
      left
      simp [Recovery.call, hld]
    | eofError =>
      cases pa with
      | none =>
        left
        simp [Recovery.call, osRemove, hld]
      | some p =>
        rcases hc : fs.contents p with _ | d
        · left
          simp [Recovery.call, osRemove, hld, hc]
        · right
          simp [Recovery.call, osRemove, hld, hc]
    | exn e =>
      left
      simp [Recovery.call, hld]

/-- Any run of calls leaves the filesystem unchanged away from the
reader's snapshot path. -/
theorem runCalls_frame (r : Recovery α) (fs : FSt) (n : Nat) (q : String)
    (hq : r.path ≠ some q) :
    ((runCalls r fs n).2.2).contents q = fs.contents q := by
  induction n generalizing r fs with
  | zero => rfl
  | succ n ih =>
    rw [runCalls_succ]
    have hq2 : (Recovery.call r fs).2.1.path ≠ some q := by
      rcases call_path r fs with hcp | hcp <;> rw [hcp] <;> simp_all
    calc ((runCalls (Recovery.call r fs).2.1 (Recovery.call r fs).2.2 n).2.2).contents q
        = ((Recovery.call r fs).2.2).contents q := ih _ _ hq2
      _ = fs.contents q := call_frame r fs q hq

/-- One call reads and writes the filesystem only at the reader's own
snapshot path: over two filesystems that agree there, the call result
and the next reader state are identical, and the resulting filesystems
still agree at the next reader's snapshot path. -/
theorem call_agree (r : Recovery α) (g1 g2 : FSt)
    (hag : ∀ p, r.path = some p → g1.contents p = g2.contents p) :
    (Recovery.call r g1).1 = (Recovery.call r g2).1 ∧
    (Recovery.call r g1).2.1 = (Recovery.call r g2).2.1 ∧
    ∀ p, (Recovery.call r g1).2.1.path = some p →
      ((Recovery.call r g1).2.2).contents p = ((Recovery.call r g2).2.2).contents p := by
  obtain ⟨sp, pa, ld⟩ := r
  cases sp with
  | none => exact ⟨rfl, rfl, fun p hp => hag p hp⟩
  | some h =>
    cases hld : ld h with
    | ok b h2 =>
      refine ⟨?_, ?_, ?_⟩ <;> simp [Recovery.call, hld]
      exact fun p hp => hag p (by simpa using hp)
    | exn e =>
      refine ⟨?_, ?_, ?_⟩ <;> simp [Recovery.call, hld]
      exact fun p hp => hag p (by simpa using hp)
    | eofError =>
      cases pa with
      | none =>
        refine ⟨?_, ?_, ?_⟩ <;> simp [Recovery.call, osRemove, hld]
      | some p0 =>
        have h0 : g1.contents p0 = g2.contents p0 := hag p0 rfl
        rcases hc : g1.contents p0 with _ | d
        · have hc2 : g2.contents p0 = none := by rw [← h0, hc]
          refine ⟨?_, ?_, ?_⟩ <;> simp [Recovery.call, osRemove, hld, hc, hc2]
        · have hc2 : g2.contents p0 = some d := by rw [← h0, hc]
          refine ⟨?_, ?_, ?_⟩ <;> simp [Recovery.call, osRemove, hld, hc, hc2]

/-- A whole run of calls depends on the filesystem only at the reader's
snapshot path: over two filesystems that agree there, every call returns
the same result and the reader states stay identical. -/
theorem runCalls_agree (r : Recovery α) (g1 g2 : FSt) (n : Nat)
    (hag : ∀ p, r.path = some p → g1.contents p = g2.contents p) :
    (runCalls r g1 n).1 = (runCalls r g2 n).1 ∧
    (runCalls r g1 n).2.1 = (runCalls r g2 n).2.1 := by
  induction n generalizing r g1 g2 with
  | zero => exact ⟨rfl, rfl⟩
  | succ n ih =>
    obtain ⟨h1, h2, h3⟩ := call_agree r g1 g2 hag
    have ihn := ih (Recovery.call r g1).2.1 (Recovery.call r g1).2.2 (Recovery.call r g2).2.2 h3
    rw [runCalls_succ, runCalls_succ, h1, h2]
    rw [h2] at ihn
    exact ⟨by rw [ihn.1], by rw [ihn.2]⟩

/-- When the source path is absent, construction changes nothing and
returns a disabled reader. -/
theorem init_src_missing (checkpoint vectorsid : String) (load : Load α) (fs : FSt)
    (hsrc : fs.contents (checkpoint ++ "/" ++ vectorsid) = none) :
    Recovery.init checkpoint vectorsid load fs =
      (Except.ok { spool := none, path := none, load := load }, fs) := by
  simp [Recovery.init, hsrc]

/-- When the source path exists, is distinct from the snapshot path, and
the snapshot path is writable, construction copies the source bytes to
the snapshot path and opens a fresh handle on them at offset 0. -/
theorem init_src_exists (checkpoint vectorsid : String) (load : Load α) (fs : FSt)
    (data : Bytes)
    (hsrc : fs.contents (checkpoint ++ "/" ++ vectorsid) = some data)
    (hne : checkpoint ++ "/" ++ vectorsid ≠ checkpoint ++ "/recovery")
    (hw : fs.writable (checkpoint ++ "/recovery") = true) :
    Recovery.init checkpoint vectorsid load fs =
      (Except.ok { spool := some { bytes := data, pos := 0, closed := false },
                   path := some (checkpoint ++ "/recovery"), load := load },
       { fs with contents := fun q =>
           if q = checkpoint ++ "/recovery" then some data else fs.contents q }) := by
  simp [Recovery.init, copyfile, hsrc, hne, hw]

/-- Characterisation of every successful construction: either the source
was absent (reader disabled, filesystem untouched) or the source existed,
was distinct from the snapshot path and writable, and the reader holds a
fresh handle on the copied bytes. -/
theorem init_ok_cases (checkpoint vectorsid : String) (load : Load α) (fs fs1 : FSt)
    (r : Recovery α)
    (hinit : Recovery.init checkpoint vectorsid load fs = (Except.ok r, fs1)) :
    (fs.contents (checkpoint ++ "/" ++ vectorsid) = none ∧
       r = { spool := none, path := none, load := load } ∧ fs1 = fs) ∨
    (∃ data, fs.contents (checkpoint ++ "/" ++ vectorsid) = some data ∧
       checkpoint ++ "/" ++ vectorsid ≠ checkpoint ++ "/recovery" ∧
       fs.writable (checkpoint ++ "/recovery") = true ∧
       r = { spool := some { bytes := data, pos := 0, closed := false },
             path := some (checkpoint ++ "/recovery"), load := load } ∧
       fs1 = { fs with contents := fun q =>
           if q = checkpoint ++ "/recovery" then some data else fs.contents q }) := by
  rcases hc : fs.contents (checkpoint ++ "/" ++ vectorsid) with _ | data
  · left
    rw [init_src_missing checkpoint vectorsid load fs hc] at hinit
    obtain ⟨h1, h2⟩ := Prod.mk.injEq .. ▸ hinit
    exact ⟨rfl, (Except.ok.injEq .. ▸ h1).symm, h2.symm⟩
  · right
    by_cases hne : checkpoint ++ "/" ++ vectorsid = checkpoint ++ "/recovery"
    · exfalso
      rw [hne] at hc
      simp [Recovery.init, copyfile, hne, hc] at hinit
    · by_cases hw : fs.writable (checkpoint ++ "/recovery") = true
      · rw [init_src_exists checkpoint vectorsid load fs data hc hne hw] at hinit
        obtain ⟨h1, h2⟩ := Prod.mk.injEq .. ▸ hinit
        exact ⟨data, by simp [hc], hne, hw, (Except.ok.injEq .. ▸ h1).symm, h2.symm⟩
      · exfalso
        simp [Recovery.init, copyfile, hc, hne, hw] at hinit

/-- The demo decoder yields exactly the batches 7 and 9 from a fresh
handle on the two-byte spool, then signals end-of-stream. -/
theorem yieldsA :
    Yields demoLoad { bytes := [7, 9], pos := 0, closed := false } [7, 9] := by
  refine Yields.cons _ { bytes := [7, 9], pos := 1, closed := false } _ _ rfl ?_
  refine Yields.cons _ { bytes := [7, 9], pos := 2, closed := false } _ _ rfl ?_
  exact Yields.nil _ rfl

/-- C1: for every construction where the source checkpoint file exists
and encodes exactly N complete batches for the supplied decoder, the
first N next-batch calls each return one batch, in the order the batches
appear in the file; the (N+1)-th call returns no data; and after that
call the snapshot file `<checkpoint-dir>/recovery` no longer exists on
disk. -/
theorem recovery_c1 (α : Type) (checkpoint vectorsid : String) (load : Load α)
    (fs fs1 : FSt) (r : Recovery α) (data : Bytes) (bs : List α)
    (hsrc : fs.contents (checkpoint ++ "/" ++ vectorsid) = some data)
    (hinit : Recovery.init checkpoint vectorsid load fs = (Except.ok r, fs1))
    (hy : Yields load { bytes := data, pos := 0, closed := false } bs) :
    (runCalls r fs1 (bs.length + 1)).1 =
      bs.map (fun b => Except.ok (some b)) ++ [Except.ok none] ∧
    ((runCalls r fs1 (bs.length + 1)).2.2).contents (checkpoint ++ "/recovery") = none := by
  rcases init_ok_cases checkpoint vectorsid load fs fs1 r hinit with
    ⟨hm, hr, hfs⟩ | ⟨data2, hsrc2, hne, hw, hr, hfs⟩
  · rw [hm] at hsrc
    cases hsrc
  · have hde : data2 = data := by
      rw [hsrc2] at hsrc
      exact Option.some.inj hsrc
    subst hde
    subst hr
    subst hfs
    have hp : ({ fs with contents := fun q =>
        if q = checkpoint ++ "/recovery" then some data2 else fs.contents q } : FSt).contents
          (checkpoint ++ "/recovery") = some data2 := by
      simp
    rw [runCalls_yields load _ bs (checkpoint ++ "/recovery") _ data2 hy hp]
    exact ⟨rfl, by simp⟩

/-- C1 witness: over the concrete two-batch checkpoint, the three calls
return batch 7, batch 9 and no data, and the snapshot is gone. -/
theorem recovery_c1_witness :
    (runCalls rA fsA1 (([7, 9] : List Nat).length + 1)).1 =
      ([7, 9] : List Nat).map (fun b => Except.ok (some b)) ++ [Except.ok none] ∧
    ((runCalls rA fsA1 (([7, 9] : List Nat).length + 1)).2.2).contents
      ("/tmp/ckpt" ++ "/recovery") = none :=
  recovery_c1 Nat "/tmp/ckpt" "vectors.bin" demoLoad fsA fsA1 rA [7, 9] [7, 9]
    (by decide) rfl yieldsA

/-- C2: on an active reader whose decoder signals clean end-of-stream
with the snapshot still on disk, the call returns no data rather than an
error, deletes the snapshot from disk, and clears both the handle and
the snapshot-path references, disabling the reader. -/
theorem recovery_c2 (α : Type) (r : Recovery α) (fs : FSt) (h : Handle) (p : String)
    (d : Bytes) (hs : r.spool = some h) (hp : r.path = some p)
    (he : r.load h = LoadRes.eofError) (hf : fs.contents p = some d) :
    (Recovery.call r fs).1 = Except.ok none ∧
    (Recovery.call r fs).2.1.spool = none ∧
    (Recovery.call r fs).2.1.path = none ∧
    ((Recovery.call r fs).2.2).contents p = none := by
  rw [call_eof r fs h p d hs hp he hf]
  exact ⟨rfl, rfl, rfl, by simp⟩

/-- C2 witness: the end-of-spool reader over the snapshot-only
filesystem cleans up and returns no data. -/
theorem recovery_c2_witness :
    (Recovery.call rB fsB).1 = Except.ok none ∧
    (Recovery.call rB fsB).2.1.spool = none ∧
    (Recovery.call rB fsB).2.1.path = none ∧
    ((Recovery.call rB fsB).2.2).contents "/tmp/ckpt/recovery" = none :=
  recovery_c2 Nat rB fsB hB "/tmp/ckpt/recovery" [7, 9] rfl rfl rfl (by decide)

/-- C3: when the source path does not exist, construction creates no
file (the filesystem is returned unchanged, so in particular no
`recovery` file appears) and every subsequent call returns no data with
no side effect. -/
theorem recovery_c3 (α : Type) (checkpoint vectorsid : String) (load : Load α) (fs : FSt)
    (hsrc : fs.contents (checkpoint ++ "/" ++ vectorsid) = none) :
    Recovery.init checkpoint vectorsid load fs =
      (Except.ok { spool := none, path := none, load := load }, fs) ∧
    ∀ n, runCalls { spool := none, path := none, load := load } fs n =
      (List.replicate n (Except.ok none), { spool := none, path := none, load := load }, fs) :=
  ⟨init_src_missing checkpoint vectorsid load fs hsrc,
   fun n => runCalls_disabled { spool := none, path := none, load := load } fs rfl n⟩

/-- C3 witness: constructing over the empty filesystem touches nothing
and two subsequent calls return no data. -/
theorem recovery_c3_witness :
    Recovery.init "/tmp/ckpt" "missing.bin" demoLoad fsEmpty =
      (Except.ok { spool := none, path := none, load := demoLoad }, fsEmpty) ∧
    runCalls { spool := none, path := none, load := demoLoad } fsEmpty 2 =
      (List.replicate 2 (Except.ok none),
       { spool := none, path := none, load := demoLoad }, fsEmpty) := by
  have h := recovery_c3 Nat "/tmp/ckpt" "missing.bin" demoLoad fsEmpty rfl
  exact ⟨h.1, h.2 2⟩

/-- C4: for every construction where the source path exists (and is the
snapshot path's distinct, copyable sibling), construction copies the
full source contents to `<checkpoint-dir>/recovery`, overwriting any
prior snapshot, leaving the snapshot byte-for-byte identical to the
source, and opens the snapshot for binary reading at offset 0. -/
theorem recovery_c4 (α : Type) (checkpoint vectorsid : String) (load : Load α)
    (fs : FSt) (data : Bytes)
    (hsrc : fs.contents (checkpoint ++ "/" ++ vectorsid) = some data)
    (hne : checkpoint ++ "/" ++ vectorsid ≠ checkpoint ++ "/recovery")
    (hw : fs.writable (checkpoint ++ "/recovery") = true) :
    Recovery.init checkpoint vectorsid load fs =
      (Except.ok { spool := some { bytes := data, pos := 0, closed := false },
                   path := some (checkpoint ++ "/recovery"), load := load },
       { fs with contents := fun q =>
           if q = checkpoint ++ "/recovery" then some data else fs.contents q }) :=
  init_src_exists checkpoint vectorsid load fs data hsrc hne hw

/-- C4 witness: constructing over the concrete checkpoint snapshots its
two bytes and opens a fresh handle on them. -/
theorem recovery_c4_witness :
    Recovery.init "/tmp/ckpt" "vectors.bin" demoLoad fsA =
      (Except.ok { spool := some { bytes := [7, 9], pos := 0, closed := false },
                   path := some ("/tmp/ckpt" ++ "/recovery"), load := demoLoad },
       { fsA with contents := fun q =>
           if q = "/tmp/ckpt" ++ "/recovery" then some [7, 9] else fsA.contents q }) :=
  recovery_c4 Nat "/tmp/ckpt" "vectors.bin" demoLoad fsA [7, 9]
    (by decide) (by decide) rfl

/-- C5: when the decoder raises an error other than the clean
end-of-stream signal, the call does not catch it: the same error
propagates to the caller and neither the reader state nor the
filesystem changes. -/
theorem recovery_c5 (α : Type) (r : Recovery α) (fs : FSt) (h : Handle) (e : Exn)
    (hs : r.spool = some h) (he : r.load h = LoadRes.exn e) :
    Recovery.call r fs = (Except.error e, r, fs) := by
  simp [Recovery.call, hs, he]

/-- C5 witness: a decoder raising a non-EOF exception propagates it
unchanged. -/
theorem recovery_c5_witness :
    Recovery.call rE fsB = (Except.error (Exn.decode 7), rE, fsB) :=
  recovery_c5 Nat rE fsB hB (Exn.decode 7) rfl rfl

/-- C6: once the reader is disabled, every further call returns no data
without raising, leaves the reader and the filesystem untouched (so no
delete of the already-deleted snapshot is attempted and the disabled
state is terminal); the result holds for every stored decoder, so the
decoder is never consulted. -/
theorem recovery_c6 (α : Type) (r : Recovery α) (fs : FSt) (hs : r.spool = none) (n : Nat) :
    runCalls r fs n = (List.replicate n (Except.ok none), r, fs) :=
  runCalls_disabled r fs hs n

/-- C6 witness: three calls on a disabled reader yield no data three
times and change nothing. -/
theorem recovery_c6_witness :
    runCalls rD fsB 3 = (List.replicate 3 (Except.ok none), rD, fsB) :=
  recovery_c6 Nat rD fsB rfl 3

/-- C7: for every successful construction and any number of subsequent
calls, the source checkpoint file keeps its original contents, and every
path other than the snapshot path `<checkpoint-dir>/recovery` is left
exactly as it was before construction: only the snapshot is ever
created, read or removed. -/
theorem recovery_c7 (α : Type) (checkpoint vectorsid : String) (load : Load α)
    (fs fs1 : FSt) (r : Recovery α)
    (hinit : Recovery.init checkpoint vectorsid load fs = (Except.ok r, fs1)) (n : Nat) :
    ((runCalls r fs1 n).2.2).contents (checkpoint ++ "/" ++ vectorsid) =
      fs.contents (checkpoint ++ "/" ++ vectorsid) ∧
    ∀ q, q ≠ checkpoint ++ "/recovery" →
      ((runCalls r fs1 n).2.2).contents q = fs.contents q := by
  rcases init_ok_cases checkpoint vectorsid load fs fs1 r hinit with
    ⟨hm, hr, hfs⟩ | ⟨data, hsrc, hne, hw, hr, hfs⟩
  · subst hr
    subst hfs
    rw [runCalls_disabled _ _ rfl n]
    exact ⟨rfl, fun q _ => rfl⟩
  · subst hr
    subst hfs
    constructor
    · have hq : ({ spool := some { bytes := data, pos := 0, closed := false },
                   path := some (checkpoint ++ "/recovery"),
                   load := load } : Recovery α).path ≠
          some (checkpoint ++ "/" ++ vectorsid) := by
        intro hx
        exact hne (by simpa using hx.symm)
      rw [runCalls_frame _ _ n _ hq]
      simp [hne]
    · intro q hq
      have hq2 : ({ spool := some { bytes := data, pos := 0, closed := false },
                    path := some (checkpoint ++ "/recovery"),
                    load := load } : Recovery α).path ≠
          some q := by
        intro hx
        exact hq (by simpa using hx.symm)
      rw [runCalls_frame _ _ n _ hq2]
      simp [hq]

/-- C7 witness: after construction and three calls over the concrete
checkpoint, the source file still holds its original bytes and an
unrelated path is untouched. -/
theorem recovery_c7_witness :
    ((runCalls rA fsA1 3).2.2).contents ("/tmp/ckpt" ++ "/" ++ "vectors.bin") =
      fsA.contents ("/tmp/ckpt" ++ "/" ++ "vectors.bin") ∧
    ((runCalls rA fsA1 3).2.2).contents "/elsewhere" = fsA.contents "/elsewhere" := by
  have h := recovery_c7 Nat "/tmp/ckpt" "vectors.bin" demoLoad fsA fsA1 rA rfl 3
  exact ⟨h.1, h.2 "/elsewhere" (by decide)⟩

/-- C8: mutating the source file after construction does not change the
sequence of results returned by the calls: every read is served from the
snapshot frozen at construction time, independent of the later
source-file state. -/
theorem recovery_c8 (α : Type) (checkpoint vectorsid : String) (load : Load α)
    (fs fs1 : FSt) (r : Recovery α) (data newdata : Bytes)
    (hsrc : fs.contents (checkpoint ++ "/" ++ vectorsid) = some data)
    (hinit : Recovery.init checkpoint vectorsid load fs = (Except.ok r, fs1)) (n : Nat) :
    (runCalls r
      { fs1 with contents := fun q =>
          if q = checkpoint ++ "/" ++ vectorsid then some newdata else fs1.contents q } n).1 =
    (runCalls r fs1 n).1 := by
  rcases init_ok_cases checkpoint vectorsid load fs fs1 r hinit with
    ⟨hm, hr, hfs⟩ | ⟨data2, hsrc2, hne, hw, hr, hfs⟩
  · rw [hm] at hsrc
    cases hsrc
  · subst hr
    refine (runCalls_agree _ _ _ n ?_).1
    intro p hp
    have hp2 : checkpoint ++ "/recovery" = p := by simpa using hp
    subst hp2
    simp [Ne.symm hne]

/-- C8 witness: overwriting the concrete source file with other bytes
after construction leaves all three call results unchanged. -/
theorem recovery_c8_witness :
    (runCalls rA
      { fsA1 with contents := fun q =>
          if q = "/tmp/ckpt" ++ "/" ++ "vectors.bin" then some [1, 2, 3]
          else fsA1.contents q } 3).1 =
    (runCalls rA fsA1 3).1 :=
  recovery_c8 Nat "/tmp/ckpt" "vectors.bin" demoLoad fsA fsA1 rA [7, 9] [1, 2, 3]
    (by decide) rfl 3

/-- C9: when the source exists but the copy to the snapshot path fails
with an I/O error, construction fails, the error propagates to the
caller rather than being swallowed, no reader is returned, and the
filesystem is untouched. -/
theorem recovery_c9 (α : Type) (checkpoint vectorsid : String) (load : Load α)
    (fs : FSt) (data : Bytes)
    (hsrc : fs.contents (checkpoint ++ "/" ++ vectorsid) = some data)
    (hne : checkpoint ++ "/" ++ vectorsid ≠ checkpoint ++ "/recovery")
    (hw : fs.writable (checkpoint ++ "/recovery") = false) :
    Recovery.init checkpoint vectorsid load fs =
      (Except.error (Exn.ioError (checkpoint ++ "/recovery")), fs) := by
  simp [Recovery.init, copyfile, hsrc, hne, hw]

/-- C9 witness: over the read-only filesystem the construction fails
with the I/O error on the snapshot path. -/
theorem recovery_c9_witness :
    Recovery.init "/tmp/ckpt" "vectors.bin" demoLoad fsRO =
      (Except.error (Exn.ioError ("/tmp/ckpt" ++ "/recovery")), fsRO) :=
  recovery_c9 Nat "/tmp/ckpt" "vectors.bin" demoLoad fsRO [7, 9]
    (by decide) (by decide) rfl

/-- C10: when end-of-stream cleanup finds the snapshot file already gone
from disk, the handle has been closed first, the `os.remove` exception
propagates to the caller, and neither the handle nor the path reference
is cleared: the reader is left with a closed but still-set handle
instead of transitioning to the disabled state. -/
theorem recovery_c10 (α : Type) (r : Recovery α) (fs : FSt) (h : Handle) (p : String)
    (hs : r.spool = some h) (hp : r.path = some p)
    (he : r.load h = LoadRes.eofError) (hf : fs.contents p = none) :
    Recovery.call r fs =
      (Except.error (Exn.fileNotFound p),
       { r with spool := some { h with closed := true } }, fs) ∧
    (Recovery.call r fs).2.1.path = some p := by
  have heq : Recovery.call r fs =
      (Except.error (Exn.fileNotFound p),
       { r with spool := some { h with closed := true } }, fs) := by
    simp [Recovery.call, osRemove, hs, he, hp, hf]
  exact ⟨heq, by rw [heq]; exact hp⟩

/-- C10 witness: cleanup over the empty filesystem propagates the
missing-file error and leaves a closed but still-set handle and path. -/
theorem recovery_c10_witness :
    Recovery.call rB fsEmpty =
      (Except.error (Exn.fileNotFound "/tmp/ckpt/recovery"),
       { rB with spool := some { hB with closed := true } }, fsEmpty) ∧
    (Recovery.call rB fsEmpty).2.1.path = some "/tmp/ckpt/recovery" :=
  recovery_c10 Nat rB fsEmpty hB "/tmp/ckpt/recovery" rfl rfl rfl rfl
